import Mathlib

/-!
Shallow embedding of the quota-and-audit persistence layer
(`src/utils/database.js` of the moderation bot repository).

The module wraps a single SQLite file behind a `Database` class whose only
mutable handle is `this.db` (null before `initializeDatabase` resolves and
after `close`).  We model the contents of the four tables created by
`createTables` as explicit lists of rows, each SQL statement as the
corresponding pure transformation of those lists, and `CURRENT_TIMESTAMP`
as an explicit `now : Nat` argument.  Fallible operations return
`Except JsError (result × Database)`, mirroring promise resolution /
rejection of the callback-based source.
-/

set_option autoImplicit false

namespace BonkBot

/-- A JavaScript `Error` as the persistence layer observes it: a `message`
string plus the optional sqlite `code` property (`err.code`), which
`initializeDatabase` consults (`err.code === "SQLITE_NOTADB"`). -/
structure JsError where
  message : String
  code : Option String
deriving Repr, DecidableEq

/-- The rejection value `new Error("Database not initialized")` used by every
operation's `if (!this.db)` guard. -/
def notInitializedError : JsError := ⟨"Database not initialized", none⟩

/-- Whether `needle` occurs as a contiguous sublist of `haystack`. -/
def listContainsInfix (haystack needle : List Char) : Bool :=
  match haystack with
  | [] => needle.isEmpty
  | _ :: t => needle.isPrefixOf haystack || listContainsInfix t needle

/-- JavaScript `haystack.includes(needle)` (substring containment), as used by
`isRetryableError` and the corruption-signature checks. -/
def strIncludes (haystack needle : String) : Bool :=
  listContainsInfix haystack.data needle.data

/-- One row of the `quotas` table (`guild_id` is the primary key). -/
structure QuotaRow where
  guild_id : String
  daily_limit : Int
  updated_by : String
  updated_by_username : String
  updated_at : Nat
deriving Repr, DecidableEq

/-- One row of the `daily_messages` table (UNIQUE(guild_id, user_id, date)). -/
structure DailyMessageRow where
  guild_id : String
  user_id : String
  date : String
  message_count : Int
  last_updated : Nat
deriving Repr, DecidableEq

/-- One row of the append-only `logs` table. -/
structure LogRow where
  guild_id : String
  action_type : String
  moderator_id : Option String
  moderator_username : Option String
  target_user_id : Option String
  target_username : Option String
  details : Option String
  timestamp : Nat
deriving Repr, DecidableEq

/-- One row of the `command_usage` table (`command_name` is the primary key). -/
structure CommandUsageRow where
  command_name : String
  usage_count : Int
deriving Repr, DecidableEq

/-- Contents of the four tables `createTables` ensures exist. -/
structure Store where
  quotas : List QuotaRow
  daily_messages : List DailyMessageRow
  logs : List LogRow
  command_usage : List CommandUsageRow
deriving Repr, DecidableEq

/-- The store right after `createTables` ran on a fresh file: all four tables
exist and are empty. -/
def emptyStore : Store := ⟨[], [], [], []⟩

/-- The `Database` class instance: `db` models `this.db`, the handle slot
every operation guards on.  It is `none` only before the first
`initializeDatabase` call and again after a successful `close`:
`initializeDatabase` assigns the handle synchronously as its very first
statement — before the open callback or `createTables` has run — and no
failure path clears it.  `some s` models an assigned handle over a
well-formed store whose tables hold `s`. -/
structure Database where
  db : Option Store
deriving Repr, DecidableEq

/-- `SELECT daily_limit FROM quotas WHERE guild_id = ?` — the row, if any. -/
def findQuota (s : Store) (guildId : String) : Option QuotaRow :=
  s.quotas.find? (fun r => r.guild_id == guildId)

/-- `getQuota(guildId)`: resolves with the row's `daily_limit`, or `0` when no
row exists; rejects with the not-initialized error when `db` is null. -/
def getQuota (d : Database) (guildId : String) :
    Except JsError (Int × Database) :=
  match d.db with
  | none => .error notInitializedError
  | some s =>
    .ok ((match findQuota s guildId with
          | some row => row.daily_limit
          | none => 0), d)

/-- The `INSERT OR REPLACE INTO quotas` statement of `setQuota`: the
conflicting row for the primary key (if any) is deleted and the new row
inserted, `updated_at` stamped with `CURRENT_TIMESTAMP` (`now`). -/
def setQuotaS (s : Store) (guildId : String) (limit : Int)
    (updatedBy updatedByUsername : String) (now : Nat) : Store :=
  { s with quotas :=
      s.quotas.filter (fun r => r.guild_id != guildId) ++
        [⟨guildId, limit, updatedBy, updatedByUsername, now⟩] }

/-- `setQuota(guildId, limit, updatedBy, updatedByUsername)`. -/
def setQuota (d : Database) (guildId : String) (limit : Int)
    (updatedBy updatedByUsername : String) (now : Nat) :
    Except JsError (Unit × Database) :=
  match d.db with
  | none => .error notInitializedError
  | some s => .ok ((), ⟨some (setQuotaS s guildId limit updatedBy updatedByUsername now)⟩)

/-- Whether a `daily_messages` row matches the (guild_id, user_id, date) key
used in every WHERE / ON CONFLICT clause of the counter operations. -/
def dmKey (r : DailyMessageRow) (guildId userId date : String) : Bool :=
  r.guild_id == guildId && r.user_id == userId && r.date == date

/-- The upsert statement of `incrementMessageCount`:
`INSERT ... VALUES (?, ?, ?, 1, CURRENT_TIMESTAMP) ON CONFLICT(guild_id,
user_id, date) DO UPDATE SET message_count = message_count + 1,
last_updated = CURRENT_TIMESTAMP`. -/
def upsertIncrement (rows : List DailyMessageRow)
    (guildId userId date : String) (now : Nat) : List DailyMessageRow :=
  if rows.any (fun r => dmKey r guildId userId date) then
    rows.map (fun r =>
      if dmKey r guildId userId date then
        { r with message_count := r.message_count + 1, last_updated := now }
      else r)
  else
    rows ++ [⟨guildId, userId, date, 1, now⟩]

/-- `SELECT message_count FROM daily_messages WHERE guild_id = ? AND
user_id = ? AND date = ?` — the count of the first matching row, if any. -/
def selectMessageCount (rows : List DailyMessageRow)
    (guildId userId date : String) : Option Int :=
  (rows.find? (fun r => dmKey r guildId userId date)).map (·.message_count)

/-- `incrementMessageCount(guildId, userId, date)`: runs the upsert, then a
separate follow-up SELECT, and resolves with `row ? row.message_count : 1`. -/
def incrementMessageCount (d : Database) (guildId userId date : String)
    (now : Nat) : Except JsError (Int × Database) :=
  match d.db with
  | none => .error notInitializedError
  | some s =>
    let rows := upsertIncrement s.daily_messages guildId userId date now
    .ok ((selectMessageCount rows guildId userId date).getD 1,
         ⟨some { s with daily_messages := rows }⟩)

/-- `getMessageCount(guildId, userId, date)`: `row ? row.message_count : 0`. -/
def getMessageCount (d : Database) (guildId userId date : String) :
    Except JsError (Int × Database) :=
  match d.db with
  | none => .error notInitializedError
  | some s =>
    .ok ((selectMessageCount s.daily_messages guildId userId date).getD 0, d)

/-- The `INSERT OR REPLACE INTO daily_messages ... VALUES (?, ?, ?, 0,
CURRENT_TIMESTAMP)` statement of `resetMessageCount`: rows conflicting on the
UNIQUE(guild_id, user_id, date) constraint are deleted and a fresh row with
count 0 inserted. -/
def resetS (s : Store) (guildId userId date : String) (now : Nat) : Store :=
  { s with daily_messages :=
      s.daily_messages.filter (fun r => !(dmKey r guildId userId date)) ++
        [⟨guildId, userId, date, 0, now⟩] }

/-- `resetMessageCount(guildId, userId, date)`. -/
def resetMessageCount (d : Database) (guildId userId date : String)
    (now : Nat) : Except JsError (Unit × Database) :=
  match d.db with
  | none => .error notInitializedError
  | some s => .ok ((), ⟨some (resetS s guildId userId date now)⟩)

/-- The `INSERT INTO logs ...` statement of `logAction`.  The `details`
argument carries `details ? JSON.stringify(details) : null` with the JSON
serialization abstracted: `none` is a null payload, `some str` an
already-serialized object. -/
def logActionS (s : Store) (guildId actionType : String)
    (moderatorId moderatorUsername targetUserId targetUsername : Option String)
    (details : Option String) (now : Nat) : Store :=
  { s with logs :=
      s.logs ++ [⟨guildId, actionType, moderatorId, moderatorUsername,
                  targetUserId, targetUsername, details, now⟩] }

/-- `logAction(guildId, actionType, moderatorId, moderatorUsername,
targetUserId, targetUsername, details)`. -/
def logAction (d : Database) (guildId actionType : String)
    (moderatorId moderatorUsername targetUserId targetUsername : Option String)
    (details : Option String) (now : Nat) : Except JsError (Unit × Database) :=
  match d.db with
  | none => .error notInitializedError
  | some s =>
    .ok ((), ⟨some (logActionS s guildId actionType moderatorId
      moderatorUsername targetUserId targetUsername details now)⟩)

/-- Serialized `{oldQuota, newQuota}` payload built by `logQuotaSet`. -/
def quotaSetDetails (oldQuota newQuota : Int) : String :=
  "\x7b\"oldQuota\":" ++ toString oldQuota ++ ",\"newQuota\":" ++
    toString newQuota ++ "\x7d"

/-- `logQuotaSet`: `logAction(guildId, "quota_set", moderatorId,
moderatorUsername, null, null, {oldQuota, newQuota})`. -/
def logQuotaSet (d : Database) (guildId moderatorId moderatorUsername : String)
    (oldQuota newQuota : Int) (now : Nat) : Except JsError (Unit × Database) :=
  logAction d guildId "quota_set" (some moderatorId) (some moderatorUsername)
    none none (some (quotaSetDetails oldQuota newQuota)) now

/-- Serialized `{reason, duration}` payload built by `logTimeout`. -/
def timeoutDetails (reason : String) (duration : Int) : String :=
  "\x7b\"reason\":\"" ++ reason ++ "\",\"duration\":" ++ toString duration ++ "\x7d"

/-- `logTimeout`: `logAction(guildId, "timeout", ..., {reason, duration})`. -/
def logTimeout (d : Database)
    (guildId moderatorId moderatorUsername targetUserId targetUsername : String)
    (reason : String) (duration : Int) (now : Nat) :
    Except JsError (Unit × Database) :=
  logAction d guildId "timeout" (some moderatorId) (some moderatorUsername)
    (some targetUserId) (some targetUsername)
    (some (timeoutDetails reason duration)) now

/-- Serialized `{reason}` payload built by `logFree` and `logQuotaReset`. -/
def reasonDetails (reason : String) : String :=
  "\x7b\"reason\":\"" ++ reason ++ "\"\x7d"

/-- `logFree`: `logAction(guildId, "free", ..., {reason})`. -/
def logFree (d : Database)
    (guildId moderatorId moderatorUsername targetUserId targetUsername : String)
    (reason : String) (now : Nat) : Except JsError (Unit × Database) :=
  logAction d guildId "free" (some moderatorId) (some moderatorUsername)
    (some targetUserId) (some targetUsername) (some (reasonDetails reason)) now

/-- Serialized `{messageCount, quotaLimit}` payload built by `logAutoTimeout`. -/
def autoTimeoutDetails (messageCount quotaLimit : Int) : String :=
  "\x7b\"messageCount\":" ++ toString messageCount ++ ",\"quotaLimit\":" ++
    toString quotaLimit ++ "\x7d"

/-- `logAutoTimeout`: `logAction(guildId, "auto_timeout", null, null,
targetUserId, targetUsername, {messageCount, quotaLimit})`. -/
def logAutoTimeout (d : Database) (guildId targetUserId targetUsername : String)
    (messageCount quotaLimit : Int) (now : Nat) :
    Except JsError (Unit × Database) :=
  logAction d guildId "auto_timeout" none none (some targetUserId)
    (some targetUsername) (some (autoTimeoutDetails messageCount quotaLimit)) now

/-- `logQuotaReset`: `logAction(guildId, "quota_reset", ..., {reason})`. -/
def logQuotaReset (d : Database)
    (guildId moderatorId moderatorUsername targetUserId targetUsername : String)
    (reason : String) (now : Nat) : Except JsError (Unit × Database) :=
  logAction d guildId "quota_reset" (some moderatorId) (some moderatorUsername)
    (some targetUserId) (some targetUsername) (some (reasonDetails reason)) now

/-- `loadAllQuotas()`: `SELECT guild_id, daily_limit FROM quotas`, collected
into a guild-to-limit mapping (modelled as the association list the `Map` is
built from). -/
def loadAllQuotas (d : Database) :
    Except JsError (List (String × Int) × Database) :=
  match d.db with
  | none => .error notInitializedError
  | some s => .ok (s.quotas.map (fun r => (r.guild_id, r.daily_limit)), d)

/-- Result object of `getDatabaseStats`. -/
structure DbStats where
  quotaCount : Nat
  messageRecordCount : Nat
  logCount : Nat
  oldestMessageDate : Option String
  oldestLogTimestamp : Option Nat
deriving Repr, DecidableEq

/-- `getDatabaseStats()`: the four `SELECT COUNT(*)` / `SELECT MIN(...)`
queries chained in the source. -/
def getDatabaseStats (d : Database) : Except JsError (DbStats × Database) :=
  match d.db with
  | none => .error notInitializedError
  | some s =>
    .ok ({ quotaCount := s.quotas.length
           messageRecordCount := s.daily_messages.length
           logCount := s.logs.length
           oldestMessageDate := (s.daily_messages.map (·.date)).min?
           oldestLogTimestamp := (s.logs.map (·.timestamp)).min? }, d)

/-- The upsert statement of `incrementCommandUsage`:
`INSERT INTO command_usage (command_name, usage_count) VALUES (?, 1)
ON CONFLICT(command_name) DO UPDATE SET usage_count = usage_count + 1`. -/
def upsertCommandUsage (rows : List CommandUsageRow) (commandName : String) :
    List CommandUsageRow :=
  if rows.any (fun r => r.command_name == commandName) then
    rows.map (fun r =>
      if r.command_name == commandName then
        { r with usage_count := r.usage_count + 1 }
      else r)
  else
    rows ++ [⟨commandName, 1⟩]

/-- `incrementCommandUsage(commandName)`: upsert, follow-up SELECT, and
`row ? row.usage_count : 1`. -/
def incrementCommandUsage (d : Database) (commandName : String) :
    Except JsError (Int × Database) :=
  match d.db with
  | none => .error notInitializedError
  | some s =>
    let rows := upsertCommandUsage s.command_usage commandName
    .ok ((((rows.find? (fun r => r.command_name == commandName)).map
            (·.usage_count)).getD 1,
          ⟨some { s with command_usage := rows }⟩))

/-- `checkIntegrity()`: rejects when not initialized; on the modelled store
(always a well-formed database file) `PRAGMA integrity_check` reports
`"ok"`, so it resolves with `true`. -/
def checkIntegrity (d : Database) : Except JsError (Bool × Database) :=
  match d.db with
  | none => .error notInitializedError
  | some _ => .ok (true, d)

/-- `close()`: resolves immediately when `this.db` is already null; otherwise
closes the handle and nulls `this.db` (the modelled underlying close always
succeeds, which is the resolve path of the source). -/
def close (d : Database) : Except JsError (Unit × Database) :=
  match d.db with
  | none => .ok ((), d)
  | some _ => .ok ((), ⟨none⟩)

/-- The synchronous start of `initializeDatabase`: its first statement,
`this.db = new sqlite3.Database(this.dbPath, cb)`, assigns the handle
object to `this.db` immediately, before the open callback or
`createTables` has run, and initialization is still pending.  Over an
existing well-formed store file whose tables hold `s`, statements issued
against the assigned handle in that window are queued and executed by the
driver — they are not rejected, since the `!this.db` guard is already
false. -/
def dbAfterSyncOpen (s : Store) : Database := ⟨some s⟩

/-- The fixed retryable-signature list of `isRetryableError`. -/
def retryableMessages : List String :=
  ["database is locked", "database disk image is malformed",
   "SQLITE_BUSY", "SQLITE_LOCKED"]

/-- `isRetryableError(error)`: whether `error.message` contains one of the
retryable signatures. -/
def isRetryableError (e : JsError) : Bool :=
  retryableMessages.any (fun msg => strIncludes e.message msg)

/-- The value thrown by `executeWithRetry` when the loop body never ran
(`maxRetries = 0`): `lastError` is still `undefined`. -/
def jsUndefined : JsError := ⟨"undefined", none⟩

/-- The `for (let attempt = 1; attempt <= maxRetries; attempt++)` loop of
`executeWithRetry`.  The operation is modelled as a pure function from the
1-based invocation number to that invocation's outcome.  `remaining`
is the fuel `maxRetries + 1 - attempt` (the number of loop iterations left),
so the recursion is structural.  The result pairs the settled outcome with
the number of times the operation was invoked from this iteration on. -/
def retryLoop {α : Type} (op : Nat → Except JsError α) (maxRetries : Nat) :
    Nat → Nat → Option JsError → Except JsError α × Nat
  | 0, _, lastError => (.error (lastError.getD jsUndefined), 0)
  | remaining + 1, attempt, _ =>
    match op attempt with
    | .ok v => (.ok v, 1)
    | .error e =>
      if strIncludes e.message "database is locked" && decide (attempt < maxRetries) then
        let r := retryLoop op maxRetries remaining (attempt + 1) (some e)
        (r.1, r.2 + 1)
      else if attempt == maxRetries || !isRetryableError e then
        (.error e, 1)
      else
        let r := retryLoop op maxRetries remaining (attempt + 1) (some e)
        (r.1, r.2 + 1)

/-- `executeWithRetry(operation, maxRetries)`: the settled outcome. -/
def executeWithRetry {α : Type} (op : Nat → Except JsError α)
    (maxRetries : Nat) : Except JsError α :=
  (retryLoop op maxRetries maxRetries 1 none).1

/-- How many times `executeWithRetry(operation, maxRetries)` invokes the
operation. -/
def executeWithRetryCalls {α : Type} (op : Nat → Except JsError α)
    (maxRetries : Nat) : Nat :=
  (retryLoop op maxRetries maxRetries 1 none).2

/-!  The file-system side of initialization and corruption recovery
(`initializeDatabase`, `recoverCorruptedDatabase`, `cleanupOldBackups`).
The store file at `this.dbPath` is either absent, a well-formed database
holding a `Store`, or corrupted (garbage bytes); backups live alongside it
as `<dbPath>.backup.<timestamp>` files. -/

/-- Contents of the store file on disk. -/
inductive DbFile where
  | absent
  | valid (s : Store)
  | corrupted
deriving Repr, DecidableEq

/-- The directory holding the store file and its timestamped backups. -/
structure FileSystem where
  dbFile : DbFile
  backups : List (Nat × DbFile)
deriving Repr, DecidableEq

/-- `cleanupOldBackups(keepCount)`: when more than `keepCount` backup files
exist, sort them newest-first by the timestamp embedded in the name and
delete all but the first `keepCount`.  Keeping a file is expressed directly:
a backup survives iff fewer than `keepCount` backups are strictly newer
(with distinct timestamps this is exactly the source's sort-and-slice). -/
def cleanupOldBackups (keepCount : Nat) (backups : List (Nat × DbFile)) :
    List (Nat × DbFile) :=
  if backups.length > keepCount then
    backups.filter (fun b => backups.countP (fun c => b.1 < c.1) < keepCount)
  else backups

/-- `recoverCorruptedDatabase()`: if the store file exists, copy it to
`<dbPath>.backup.<Date.now()>` and delete the original; then prune old
backups keeping the 5 most recent. -/
def recoverCorruptedDatabase (now : Nat) (fs : FileSystem) : FileSystem :=
  let fs' :=
    if fs.dbFile ≠ DbFile.absent then
      { dbFile := DbFile.absent, backups := fs.backups ++ [(now, fs.dbFile)] }
    else fs
  { fs' with backups := cleanupOldBackups 5 fs'.backups }

/-- One `new sqlite3.Database(path, cb)` attempt.  sqlite opens the file
lazily, so the open itself only fails on an environment fault (disk error,
permissions, ...), injected here through the `fault` oracle; a corrupted
file is detected by the first statement executed against the handle
(`createTables`), not by `open`. -/
def sqliteOpen (fault : Option JsError) (fs : FileSystem) :
    Except JsError FileSystem :=
  match fault with
  | some e => .error e
  | none => .ok fs

/-- Running the four `CREATE TABLE IF NOT EXISTS` statements of
`createTables` against the opened file: creates the empty schema on a fresh
file, is a no-op on a well-formed file, and fails with `SQLITE_NOTADB` on a
corrupted file. -/
def createTables (fs : FileSystem) : Except JsError (Store × FileSystem) :=
  match fs.dbFile with
  | .corrupted => .error ⟨"file is not a database", some "SQLITE_NOTADB"⟩
  | .absent => .ok (emptyStore, { fs with dbFile := .valid emptyStore })
  | .valid s => .ok (s, fs)

/-- The corruption signature `initializeDatabase` checks on an open error:
`err.message.includes("database disk image is malformed") ||
err.message.includes("file is not a database") ||
err.code === "SQLITE_NOTADB"`. -/
def isCorruptionOpenError (e : JsError) : Bool :=
  strIncludes e.message "database disk image is malformed" ||
    strIncludes e.message "file is not a database" ||
    e.code == some "SQLITE_NOTADB"

/-- The corruption signature checked on a `createTables` error:
`createErr.message.includes("file is not a database") ||
createErr.code === "SQLITE_NOTADB"`. -/
def isCorruptionCreateError (e : JsError) : Bool :=
  strIncludes e.message "file is not a database" ||
    e.code == some "SQLITE_NOTADB"

/-- The recover-then-retry branch shared by both corruption paths of
`initializeDatabase`: back up and delete the corrupted file, reopen once
(consuming the second fault slot), and run `createTables`; any failure of
the retry rejects. -/
def recoverAndRetry (fault₂ : Option JsError) (now : Nat) (fs : FileSystem) :
    Except JsError Database × FileSystem :=
  let fs₁ := recoverCorruptedDatabase now fs
  match sqliteOpen fault₂ fs₁ with
  | .error retryErr => (.error retryErr, fs₁)
  | .ok fs₂ =>
    match createTables fs₂ with
    | .error e => (.error e, fs₂)
    | .ok (s, fs₃) => (.ok ⟨some s⟩, fs₃)

/-- `initializeDatabase()` (named `initDatabase` here): open the store file,
run `createTables`, and on a corruption-signature failure of either step run
recovery and retry exactly once; a non-corruption failure, or any failure of
the single retry, rejects.  `fault₁`/`fault₂` are the environment-fault
slots consumed by the first and second open attempt, and `now` is
`Date.now()` used for the backup name. -/
def initDatabase (fault₁ fault₂ : Option JsError) (now : Nat)
    (fs : FileSystem) : Except JsError Database × FileSystem :=
  match sqliteOpen fault₁ fs with
  | .error err =>
    if isCorruptionOpenError err then
      recoverAndRetry fault₂ now fs
    else (.error err, fs)
  | .ok fs₀ =>
    match createTables fs₀ with
    | .ok (s, fs₁) => (.ok ⟨some s⟩, fs₁)
    | .error createErr =>
      if isCorruptionCreateError createErr then
        recoverAndRetry fault₂ now fs₀
      else (.error createErr, fs₀)

/-- Lexicographic string comparison (SQLite's ordering on the `TEXT` dates),
expressed on the underlying character lists so that it evaluates by
reduction.  `dateLt a b` is `a < b` (see `dateLt_iff`). -/
def dateLt (a b : String) : Bool := decide (a.data < b.data)

/-- Modelled from the spec: the counter store's retention cleanup
`cleanupOlderThan(days)` (called `cleanupOldMessages` by the repository's
test suite) is absent from `src/utils/database.js`; only its tests exist.
Per the spec it "deletes all counter rows whose `date` is strictly before
`today - days`; returns count of deleted rows. Only `date` (not
`lastUpdatedAt`) determines eligibility."  The date arithmetic
`today - days` is abstracted into the `cutoff` argument, a `YYYY-MM-DD`
string (on such strings lexicographic order is chronological order). -/
def cleanupOldMessages (d : Database) (cutoff : String) :
    Except JsError (Nat × Database) :=
  match d.db with
  | none => .error notInitializedError
  | some s =>
    let kept := s.daily_messages.filter (fun r => !(dateLt r.date cutoff))
    .ok (s.daily_messages.length - kept.length,
         ⟨some { s with daily_messages := kept }⟩)

/-!  Interleaving model for concurrent `incrementMessageCount` calls on one
key.  A single call issues two statements against the shared serialized
connection: the upsert (`db.run`) and, from the run callback, the follow-up
SELECT (`db.get`).  The storage engine serializes individual statements, not
whole calls, so a schedule is any interleaving of the `N` calls' upsert and
select steps in which each call's select comes after its own upsert. -/

/-- One serialized statement of one of the `N` concurrent calls. -/
inductive IncEvent (N : Nat) where
  | upsert (i : Fin N)
  | select (i : Fin N)
deriving Repr, DecidableEq

/-- Whether the event is an upsert step. -/
def IncEvent.isUpsert {N : Nat} : IncEvent N → Bool
  | .upsert _ => true
  | .select _ => false

/-- Whether the event is a select step. -/
def IncEvent.isSelect {N : Nat} : IncEvent N → Bool
  | .upsert _ => false
  | .select _ => true

/-- Validity of an event sequence given the calls that have already issued
their upsert (`upserted`) resp. their select (`selected`): every call
upserts once and selects once, and only after its own upsert. -/
def okEvents {N : Nat} (upserted selected : List (Fin N)) :
    List (IncEvent N) → Bool
  | [] => true
  | .upsert i :: rest =>
    !upserted.contains i && okEvents (i :: upserted) selected rest
  | .select i :: rest =>
    upserted.contains i && !selected.contains i &&
      okEvents upserted (i :: selected) rest

/-- A complete valid schedule of `N` concurrent `incrementMessageCount`
calls: a well-formed interleaving containing all `N` upserts and all `N`
selects. -/
def validSched (N : Nat) (sched : List (IncEvent N)) : Bool :=
  okEvents [] [] sched &&
    sched.countP (·.isUpsert) == N && sched.countP (·.isSelect) == N

/-- Table contents plus the values resolved so far while a schedule runs. -/
structure IncRunState where
  rows : List DailyMessageRow
  results : List Int
deriving Repr, DecidableEq

/-- Executing one serialized statement: an upsert step runs the
`INSERT ... ON CONFLICT DO UPDATE` of `incrementMessageCount`, a select
step runs its follow-up SELECT and resolves that call's promise with
`row ? row.message_count : 1`. -/
def stepEvent {N : Nat} (guildId userId date : String) (now : Nat)
    (st : IncRunState) : IncEvent N → IncRunState
  | .upsert _ =>
    { st with rows := upsertIncrement st.rows guildId userId date now }
  | .select _ =>
    { st with results :=
        st.results ++ [(selectMessageCount st.rows guildId userId date).getD 1] }

/-- Running a schedule of statements from the given table contents. -/
def runSched {N : Nat} (guildId userId date : String) (now : Nat)
    (sched : List (IncEvent N)) (rows₀ : List DailyMessageRow) : IncRunState :=
  sched.foldl (stepEvent guildId userId date now) ⟨rows₀, []⟩

/-!  Trace model for the mutating operations of the persistence layer,
used to state "was never called" properties over a whole run. -/

/-- One mutating call into the persistence layer after initialization. -/
inductive DbOp where
  | setQuota (guildId : String) (limit : Int)
      (updatedBy updatedByUsername : String) (now : Nat)
  | incrementMessageCount (guildId userId date : String) (now : Nat)
  | resetMessageCount (guildId userId date : String) (now : Nat)
  | logAction (guildId actionType : String)
      (moderatorId moderatorUsername targetUserId targetUsername : Option String)
      (details : Option String) (now : Nat)
  | incrementCommandUsage (commandName : String)
deriving Repr, DecidableEq

/-- Effect of one mutating call on the open store. -/
def applyOp (s : Store) : DbOp → Store
  | .setQuota g l ub ubn now => setQuotaS s g l ub ubn now
  | .incrementMessageCount g u dt now =>
    { s with daily_messages := upsertIncrement s.daily_messages g u dt now }
  | .resetMessageCount g u dt now => resetS s g u dt now
  | .logAction g a mi mn ti tn det now => logActionS s g a mi mn ti tn det now
  | .incrementCommandUsage name =>
    { s with command_usage := upsertCommandUsage s.command_usage name }

/-- Effect of a whole trace of mutating calls. -/
def runOps (ops : List DbOp) (s : Store) : Store :=
  ops.foldl applyOp s

/-- Whether the call is a `setQuota` for the given guild. -/
def DbOp.isSetQuotaFor (g : String) : DbOp → Bool
  | .setQuota g' _ _ _ _ => g' == g
  | _ => false

/-- Whether the call is an `incrementMessageCount` or `resetMessageCount`
for the given (guildId, userId, date) key. -/
def DbOp.touchesCounter (g u dt : String) : DbOp → Bool
  | .incrementMessageCount g' u' dt' _ => g' == g && u' == u && dt' == dt
  | .resetMessageCount g' u' dt' _ => g' == g && u' == u && dt' == dt
  | _ => false

instance {ε α : Type} [DecidableEq ε] [DecidableEq α] : DecidableEq (Except ε α) :=
  fun x y =>
    match x, y with
    | .ok a, .ok b =>
      if h : a = b then .isTrue (by rw [h])
      else .isFalse (by intro hc; cases hc; exact h rfl)
    | .error a, .error b =>
      if h : a = b then .isTrue (by rw [h])
      else .isFalse (by intro hc; cases hc; exact h rfl)
    | .ok _, .error _ => .isFalse (by intro hc; cases hc)
    | .error _, .ok _ => .isFalse (by intro hc; cases hc)

/-!  Theorems. -/

/-- `dateLt` agrees with the `<` order on strings. -/
theorem dateLt_iff (a b : String) : dateLt a b = true ↔ a < b := by
  rw [String.lt_iff_toList_lt]
  simp [dateLt, String.toList]

/-- After deleting every row matching `p` and appending a fresh matching
row, the first row matching `p` is the fresh one (the shape shared by the
two `INSERT OR REPLACE` statements, `setQuota` and `resetMessageCount`). -/
theorem find?_filterNot_append {α : Type} (p : α → Bool) (l : List α) (x : α)
    (hx : p x = true) :
    ((l.filter (fun r => !p r)) ++ [x]).find? p = some x := by
  induction l with
  | nil => simp [List.find?, hx]
  | cons a t ih =>
    by_cases h : p a
    · simpa [List.filter_cons, h] using ih
    · simp [List.filter_cons, h, List.find?_cons, ih]

/-- C8 (amended): every persistence operation — `getQuota`, `setQuota`,
`incrementMessageCount`, `getMessageCount`, `resetMessageCount`, `logAction`
and its typed wrappers, `loadAllQuotas`, `getDatabaseStats`,
`incrementCommandUsage`, `checkIntegrity` — invoked while `this.db` is null
(before `initializeDatabase` has ever been invoked, or after a successful
`close`) rejects with the not-initialized error and performs no work.  This
window is strictly smaller than "before `initializeDatabase` has completed
successfully": `initializeDatabase` assigns `this.db` synchronously as its
first statement and no failure path clears it, so an operation invoked
while initialization is still pending passes the `!this.db` guard and is
executed against the assigned handle instead of being rejected — witnessed
here by a read and a write against the pending handle, both of which
resolve. -/
theorem uninitialized_ops_reject (g u dt actionType name reason : String)
    (l oldQ newQ dur mc ql : Int) (mi mn ti tn det : Option String)
    (ub ubn tu tun : String) (now : Nat) :
    (getQuota ⟨none⟩ g = .error notInitializedError ∧
    setQuota ⟨none⟩ g l ub ubn now = .error notInitializedError ∧
    incrementMessageCount ⟨none⟩ g u dt now = .error notInitializedError ∧
    getMessageCount ⟨none⟩ g u dt = .error notInitializedError ∧
    resetMessageCount ⟨none⟩ g u dt now = .error notInitializedError ∧
    logAction ⟨none⟩ g actionType mi mn ti tn det now = .error notInitializedError ∧
    logQuotaSet ⟨none⟩ g ub ubn oldQ newQ now = .error notInitializedError ∧
    logTimeout ⟨none⟩ g ub ubn tu tun reason dur now = .error notInitializedError ∧
    logFree ⟨none⟩ g ub ubn tu tun reason now = .error notInitializedError ∧
    logAutoTimeout ⟨none⟩ g tu tun mc ql now = .error notInitializedError ∧
    logQuotaReset ⟨none⟩ g ub ubn tu tun reason now = .error notInitializedError ∧
    loadAllQuotas ⟨none⟩ = .error notInitializedError ∧
    getDatabaseStats ⟨none⟩ = .error notInitializedError ∧
    incrementCommandUsage ⟨none⟩ name = .error notInitializedError ∧
    checkIntegrity ⟨none⟩ = .error notInitializedError) ∧
    (∀ s : Store, ∃ v d', getQuota (dbAfterSyncOpen s) g = .ok (v, d')) ∧
    (∀ s : Store, ∃ v d',
      incrementMessageCount (dbAfterSyncOpen s) g u dt now = .ok (v, d')) :=
  ⟨⟨rfl, rfl, rfl, rfl, rfl, rfl, rfl, rfl, rfl, rfl, rfl, rfl, rfl, rfl, rfl⟩,
   fun _ => ⟨_, _, rfl⟩, fun _ => ⟨_, _, rfl⟩⟩

/-- C8 counterexample to the claim as stated: `initializeDatabase` assigns
`this.db` synchronously (its first statement) and initialization is still
pending, so over an existing well-formed store file a `getQuota` invoked
before `initializeDatabase` has completed is executed against the assigned
handle — it resolves with the value stored by the previous run — instead of
rejecting with the not-initialized error. -/
theorem uninitialized_ops_reject_counterexample :
    getQuota (dbAfterSyncOpen
        { emptyStore with quotas := [⟨"g", 5, "m", "Mod", 0⟩] }) "g" =
      .ok (5, dbAfterSyncOpen
        { emptyStore with quotas := [⟨"g", 5, "m", "Mod", 0⟩] }) ∧
    getQuota (dbAfterSyncOpen
        { emptyStore with quotas := [⟨"g", 5, "m", "Mod", 0⟩] }) "g" ≠
      .error notInitializedError :=
  ⟨by decide, by decide⟩

/-- C9: `close()` always resolves, leaves the handle null, and closing an
already-closed (or never-opened) store is a successful no-op, so
`close ∘ close` has the same effect as a single `close`. -/
theorem close_idempotent (d : Database) :
    close d = .ok ((), Database.mk none) ∧
    close (Database.mk none) = .ok ((), Database.mk none) := by
  obtain ⟨db⟩ := d
  cases db <;> exact ⟨rfl, rfl⟩

/-- C10: after a successful `close()` the store is back in the uninitialized
state — every persistence operation rejects with the same not-initialized
error as before `initializeDatabase` was ever called — and running
`initializeDatabase` again (on the intact store file) succeeds. -/
theorem close_returns_to_uninitialized (d d' : Database)
    (g u dt actionType name : String) (l : Int)
    (mi mn ti tn det : Option String) (ub ubn : String) (now : Nat)
    (s : Store) (backups : List (Nat × DbFile))
    (h : close d = .ok ((), d')) :
    getQuota d' g = .error notInitializedError ∧
    setQuota d' g l ub ubn now = .error notInitializedError ∧
    incrementMessageCount d' g u dt now = .error notInitializedError ∧
    getMessageCount d' g u dt = .error notInitializedError ∧
    resetMessageCount d' g u dt now = .error notInitializedError ∧
    logAction d' g actionType mi mn ti tn det now = .error notInitializedError ∧
    loadAllQuotas d' = .error notInitializedError ∧
    getDatabaseStats d' = .error notInitializedError ∧
    incrementCommandUsage d' name = .error notInitializedError ∧
    checkIntegrity d' = .error notInitializedError ∧
    (initDatabase none none now ⟨.valid s, backups⟩).1 = .ok ⟨some s⟩ := by
  have hd' : d' = ⟨none⟩ := by
    obtain ⟨db⟩ := d
    cases db <;>
    · simp only [close] at h
      exact (congrArg Prod.snd (Except.ok.inj h)).symm
  subst hd'
  exact ⟨rfl, rfl, rfl, rfl, rfl, rfl, rfl, rfl, rfl, rfl, rfl⟩

/-- Witness for `close_returns_to_uninitialized` at a concrete open store. -/
theorem close_returns_to_uninitialized_witness :
    getQuota ⟨none⟩ "g1" = .error notInitializedError ∧
    setQuota ⟨none⟩ "g1" 5 "m" "n" 0 = .error notInitializedError ∧
    incrementMessageCount ⟨none⟩ "g1" "u1" "2024-01-01" 0 = .error notInitializedError ∧
    getMessageCount ⟨none⟩ "g1" "u1" "2024-01-01" = .error notInitializedError ∧
    resetMessageCount ⟨none⟩ "g1" "u1" "2024-01-01" 0 = .error notInitializedError ∧
    logAction ⟨none⟩ "g1" "timeout" none none none none none 0 = .error notInitializedError ∧
    loadAllQuotas ⟨none⟩ = .error notInitializedError ∧
    getDatabaseStats ⟨none⟩ = .error notInitializedError ∧
    incrementCommandUsage ⟨none⟩ "help" = .error notInitializedError ∧
    checkIntegrity ⟨none⟩ = .error notInitializedError ∧
    (initDatabase none none 0 ⟨.valid emptyStore, []⟩).1 = .ok ⟨some emptyStore⟩ :=
  close_returns_to_uninitialized ⟨some emptyStore⟩ ⟨none⟩ "g1" "u1" "2024-01-01"
    "timeout" "help" 5 none none none none none "m" "n" 0 emptyStore [] rfl

/-- After deleting every row matching `p` and appending a fresh matching
row, exactly one row matches `p`. -/
theorem countP_filterNot_append {α : Type} (p : α → Bool) (l : List α) (x : α)
    (hx : p x = true) :
    ((l.filter (fun r => !p r)) ++ [x]).countP p = 1 := by
  rw [List.countP_append]
  have h0 : (l.filter (fun r => !p r)).countP p = 0 := by
    rw [List.countP_eq_zero]
    intro a ha
    have := (List.mem_filter.mp ha).2
    simp only [Bool.not_eq_true'] at this
    simp [this]
  simp [h0, List.countP_cons, hx]

/-- After `setQuotaS` the first row found for the guild is the freshly
written one. -/
theorem findQuota_setQuotaS (s : Store) (g : String) (l : Int)
    (ub ubn : String) (now : Nat) :
    findQuota (setQuotaS s g l ub ubn now) g = some ⟨g, l, ub, ubn, now⟩ := by
  show ((s.quotas.filter (fun r : QuotaRow => !(r.guild_id == g))) ++
      ([⟨g, l, ub, ubn, now⟩] : List QuotaRow)).find?
        (fun r : QuotaRow => r.guild_id == g) = some ⟨g, l, ub, ubn, now⟩
  exact find?_filterNot_append _ _ _ (by simp)

/-- After `setQuotaS` exactly one quota row exists for the guild. -/
theorem countQuota_setQuotaS (s : Store) (g : String) (l : Int)
    (ub ubn : String) (now : Nat) :
    (setQuotaS s g l ub ubn now).quotas.countP (fun r => r.guild_id == g) = 1 := by
  show ((s.quotas.filter (fun r : QuotaRow => !(r.guild_id == g))) ++
      ([⟨g, l, ub, ubn, now⟩] : List QuotaRow)).countP
        (fun r : QuotaRow => r.guild_id == g) = 1
  exact countP_filterNot_append _ _ _ (by simp)

/-- C5: `setQuota` upserts the single quota row of a guild: after two
consecutive `setQuota` calls for the same guild, `getQuota` returns the
second limit, the stored `updated_by` identity is the second moderator, and
exactly one `quotas` row exists for that guild. -/
theorem setQuota_upsert (d : Database) (s : Store) (g : String)
    (l₁ l₂ : Int) (m₁ n₁ m₂ n₂ : String) (t₁ t₂ : Nat)
    (h : d.db = some s) :
    ∃ d₁ d₂ s₂,
      setQuota d g l₁ m₁ n₁ t₁ = .ok ((), d₁) ∧
      setQuota d₁ g l₂ m₂ n₂ t₂ = .ok ((), d₂) ∧
      d₂.db = some s₂ ∧
      getQuota d₂ g = .ok (l₂, d₂) ∧
      findQuota s₂ g = some ⟨g, l₂, m₂, n₂, t₂⟩ ∧
      s₂.quotas.countP (fun r => r.guild_id == g) = 1 := by
  obtain ⟨db⟩ := d
  cases db with
  | none => exact absurd h (by simp)
  | some s₀ =>
    have hs : s₀ = s := by simpa using h
    subst hs
    refine ⟨⟨some (setQuotaS s₀ g l₁ m₁ n₁ t₁)⟩,
      ⟨some (setQuotaS (setQuotaS s₀ g l₁ m₁ n₁ t₁) g l₂ m₂ n₂ t₂)⟩,
      setQuotaS (setQuotaS s₀ g l₁ m₁ n₁ t₁) g l₂ m₂ n₂ t₂,
      rfl, rfl, rfl, ?_, findQuota_setQuotaS _ _ _ _ _ _,
      countQuota_setQuotaS _ _ _ _ _ _⟩
    simp [getQuota, findQuota_setQuotaS]

/-- Witness for `setQuota_upsert`: `setQuota(g,15,m1)` then `setQuota(g,25,m2)`
makes `getQuota(g)` return 25 with `updated_by` m2 and a single row. -/
theorem setQuota_upsert_witness :
    ∃ d₁ d₂ s₂,
      setQuota ⟨some emptyStore⟩ "g" 15 "m1" "Mod1" 10 = .ok ((), d₁) ∧
      setQuota d₁ "g" 25 "m2" "Mod2" 20 = .ok ((), d₂) ∧
      d₂.db = some s₂ ∧
      getQuota d₂ "g" = .ok (25, d₂) ∧
      findQuota s₂ "g" = some ⟨"g", 25, "m2", "Mod2", 20⟩ ∧
      s₂.quotas.countP (fun r => r.guild_id == "g") = 1 :=
  setQuota_upsert ⟨some emptyStore⟩ emptyStore "g" 15 25 "m1" "Mod1" "m2" "Mod2"
    10 20 rfl

/-- Deleting the rows matching `p` shrinks the list by exactly the number of
rows matching `p`. -/
theorem length_sub_filterNot {α : Type} (p : α → Bool) (l : List α) :
    l.length - (l.filter (fun r => !p r)).length = l.countP p := by
  induction l with
  | nil => simp
  | cons a t ih =>
    have hle := t.length_filter_le (fun r => !p r)
    by_cases h : p a
    · have h1 : (!p a) = false := by simp [h]
      rw [List.filter_cons, h1]
      simp only [Bool.false_eq_true, if_false, List.countP_cons,
        List.length_cons]
      have h2 : (if p a = true then 1 else 0) = 1 := by simp [h]
      rw [h2]
      omega
    · have h1 : (!p a) = true := by simp [h]
      rw [List.filter_cons, h1, if_pos rfl]
      simp only [List.countP_cons, List.length_cons]
      have h2 : (if p a = true then 1 else 0) = 0 := by simp [h]
      rw [h2]
      omega

/-- C7 (spec-modelled): `cleanupOldMessages` deletes exactly the counter
rows whose `date` is strictly before the cutoff day, judged by `date` alone,
returns the number of deleted rows, and leaves every newer row untouched. -/
theorem cleanupOldMessages_spec (d : Database) (s : Store) (cutoff : String)
    (h : d.db = some s) :
    cleanupOldMessages d cutoff =
      .ok (s.daily_messages.countP (fun r => dateLt r.date cutoff),
        ⟨some { s with daily_messages :=
          s.daily_messages.filter (fun r => !(dateLt r.date cutoff)) }⟩) ∧
    (∀ r ∈ s.daily_messages.filter (fun r => !(dateLt r.date cutoff)),
      ¬(r.date < cutoff)) ∧
    (∀ r ∈ s.daily_messages, ¬(r.date < cutoff) →
      r ∈ s.daily_messages.filter (fun r => !(dateLt r.date cutoff))) := by
  obtain ⟨db⟩ := d
  cases db with
  | none => exact absurd h (by simp)
  | some s₀ =>
    have hs : s₀ = s := by simpa using h
    subst hs
    refine ⟨?_, ?_, ?_⟩
    · simp only [cleanupOldMessages, Except.ok.injEq, Prod.mk.injEq]
      exact ⟨length_sub_filterNot _ _, trivial⟩
    · intro r hr
      have hkept := (List.mem_filter.mp hr).2
      simp only [Bool.not_eq_true'] at hkept
      intro hlt
      exact absurd ((dateLt_iff _ _).mpr hlt) (by simp [hkept])
    · intro r hr hcut
      refine List.mem_filter.mpr ⟨hr, ?_⟩
      simp only [Bool.not_eq_true']
      exact (Bool.not_eq_true _).mp (fun hd => hcut ((dateLt_iff _ _).mp hd))

/-- Witness for `cleanupOldMessages_spec`: with one counter dated 40 days
before 2024-02-14 and one dated that day, a cutoff of 30 days earlier
deletes exactly the old row, returns 1, and keeps the newer row. -/
theorem cleanupOldMessages_spec_witness :
    cleanupOldMessages
        ⟨some { emptyStore with daily_messages :=
          [⟨"g", "u", "2024-01-05", 3, 0⟩, ⟨"g", "u", "2024-02-14", 1, 0⟩] }⟩
        "2024-01-15" =
      .ok (1, ⟨some { emptyStore with daily_messages :=
        [⟨"g", "u", "2024-02-14", 1, 0⟩] }⟩) :=
  ((cleanupOldMessages_spec
      ⟨some { emptyStore with daily_messages :=
        [⟨"g", "u", "2024-01-05", 3, 0⟩, ⟨"g", "u", "2024-02-14", 1, 0⟩] }⟩
      { emptyStore with daily_messages :=
        [⟨"g", "u", "2024-01-05", 3, 0⟩, ⟨"g", "u", "2024-02-14", 1, 0⟩] }
      "2024-01-15" rfl).1).trans (by rfl)

/-- The follow-up SELECT after the upsert of `incrementMessageCount` always
finds a row for the key, holding the previous count (0 when the row was
absent) plus one. -/
theorem selectMessageCount_upsert (rows : List DailyMessageRow)
    (g u dt : String) (now : Nat) :
    selectMessageCount (upsertIncrement rows g u dt now) g u dt =
      some ((selectMessageCount rows g u dt).getD 0 + 1) := by
  cases h : rows.any (fun r => dmKey r g u dt) with
  | true =>
    obtain ⟨r₀, hr₀⟩ : ∃ r₀, rows.find? (fun r => dmKey r g u dt) = some r₀ := by
      have hex : ∃ x ∈ rows, dmKey x g u dt := by
        simpa using List.any_eq_true.mp h
      exact Option.isSome_iff_exists.mp (List.find?_isSome.mpr hex)
    have hp₀ : dmKey r₀ g u dt = true :=
      List.find?_some (p := fun r => dmKey r g u dt) hr₀
    have hpf :
        ((fun r => dmKey r g u dt) ∘ fun r : DailyMessageRow =>
          if dmKey r g u dt then
            { r with message_count := r.message_count + 1, last_updated := now }
          else r) = fun r => dmKey r g u dt := by
      funext r
      simp only [Function.comp]
      split <;> rfl
    unfold upsertIncrement selectMessageCount
    rw [h]
    simp only [if_true]
    rw [List.find?_map, hpf, hr₀]
    simp [hp₀]
  | false =>
    have hall : ∀ x ∈ rows, ¬ (dmKey x g u dt = true) := by
      intro x hx hpx
      have : rows.any (fun r => dmKey r g u dt) = true :=
        List.any_eq_true.mpr ⟨x, hx, hpx⟩
      rw [h] at this
      exact Bool.false_ne_true this
    have hnone : rows.find? (fun r => dmKey r g u dt) = none :=
      List.find?_eq_none.mpr hall
    unfold upsertIncrement selectMessageCount
    rw [h]
    simp only [Bool.false_eq_true, if_false]
    rw [List.find?_append, hnone]
    simp [List.find?, dmKey]

/-- After `resetS` the key's row exists and holds count 0. -/
theorem selectMessageCount_resetS (s : Store) (g u dt : String) (now : Nat) :
    selectMessageCount (resetS s g u dt now).daily_messages g u dt = some 0 := by
  show (((s.daily_messages.filter (fun r : DailyMessageRow => !(dmKey r g u dt))) ++
      ([⟨g, u, dt, 0, now⟩] : List DailyMessageRow)).find?
        (fun r => dmKey r g u dt)).map (·.message_count) = some 0
  rw [find?_filterNot_append _ _ _ (by simp [dmKey])]
  rfl

/-- C3: `resetMessageCount` stores count 0 (creating the row when absent):
afterwards `getMessageCount` resolves with 0 — not an absent-row error —
and the next `incrementMessageCount` resolves with 1; in particular, from a
key with no row the sequence increment, increment, reset, increment
resolves with 1, 2, then 1 (not 3). -/
theorem resetMessageCount_semantics (d : Database) (s : Store)
    (g u dt : String) (t₁ t₂ t₃ t₄ : Nat) (h : d.db = some s) :
    (∃ dr, resetMessageCount d g u dt t₃ = .ok ((), dr) ∧
      getMessageCount dr g u dt = .ok (0, dr) ∧
      ∃ d', incrementMessageCount dr g u dt t₄ = .ok (1, d')) ∧
    (s.daily_messages.all (fun r => !(dmKey r g u dt)) = true →
      ∃ d₁ d₂ d₃ d₄,
        incrementMessageCount d g u dt t₁ = .ok (1, d₁) ∧
        incrementMessageCount d₁ g u dt t₂ = .ok (2, d₂) ∧
        resetMessageCount d₂ g u dt t₃ = .ok ((), d₃) ∧
        incrementMessageCount d₃ g u dt t₄ = .ok (1, d₄)) := by
  obtain ⟨db⟩ := d
  cases db with
  | none => exact absurd h (by simp)
  | some s₀ =>
    have hs : s₀ = s := by simpa using h
    subst hs
    constructor
    · refine ⟨⟨some (resetS s₀ g u dt t₃)⟩, rfl, ?_, ?_⟩
      · simp [getMessageCount, selectMessageCount_resetS]
      · refine ⟨⟨some { resetS s₀ g u dt t₃ with daily_messages := upsertIncrement (resetS s₀ g u dt t₃).daily_messages g u dt t₄ }⟩, ?_⟩
        simp [incrementMessageCount, selectMessageCount_upsert,
          selectMessageCount_resetS]
    · intro habs
      have hnone : selectMessageCount s₀.daily_messages g u dt = none := by
        unfold selectMessageCount
        rw [List.find?_eq_none.mpr]
        · rfl
        · intro x hx hpx
          have := List.all_eq_true.mp habs x hx
          simp [hpx] at this
      obtain ⟨s₂, hs₂⟩ : ∃ x : Store, x = { s₀ with daily_messages := upsertIncrement (upsertIncrement s₀.daily_messages g u dt t₁) g u dt t₂ } :=
        ⟨_, rfl⟩
      refine ⟨⟨some { s₀ with daily_messages := upsertIncrement s₀.daily_messages g u dt t₁ }⟩,
        ⟨some s₂⟩,
        ⟨some (resetS s₂ g u dt t₃)⟩,
        ⟨some { resetS s₂ g u dt t₃ with daily_messages := upsertIncrement (resetS s₂ g u dt t₃).daily_messages g u dt t₄ }⟩,
        ?_, ?_, rfl, ?_⟩
      · simp [incrementMessageCount, selectMessageCount_upsert, hnone]
      · subst hs₂
        simp [incrementMessageCount, selectMessageCount_upsert, hnone]
      · simp [incrementMessageCount, selectMessageCount_upsert,
          selectMessageCount_resetS]

/-- Witness for `resetMessageCount_semantics` on the fresh store. -/
theorem resetMessageCount_semantics_witness :
    (∃ dr, resetMessageCount ⟨some emptyStore⟩ "g" "u" "2024-01-01" 3 = .ok ((), dr) ∧
      getMessageCount dr "g" "u" "2024-01-01" = .ok (0, dr) ∧
      ∃ d', incrementMessageCount dr "g" "u" "2024-01-01" 4 = .ok (1, d')) ∧
    (emptyStore.daily_messages.all (fun r => !(dmKey r "g" "u" "2024-01-01")) = true →
      ∃ d₁ d₂ d₃ d₄,
        incrementMessageCount ⟨some emptyStore⟩ "g" "u" "2024-01-01" 1 = .ok (1, d₁) ∧
        incrementMessageCount d₁ "g" "u" "2024-01-01" 2 = .ok (2, d₂) ∧
        resetMessageCount d₂ "g" "u" "2024-01-01" 3 = .ok ((), d₃) ∧
        incrementMessageCount d₃ "g" "u" "2024-01-01" 4 = .ok (1, d₄)) :=
  resetMessageCount_semantics ⟨some emptyStore⟩ emptyStore "g" "u" "2024-01-01"
    1 2 3 4 rfl

/-- An error without any retryable signature in particular lacks the lock
signature. -/
theorem not_locked_of_not_retryable (e : JsError)
    (h : isRetryableError e = false) :
    strIncludes e.message "database is locked" = false := by
  simp only [isRetryableError, retryableMessages, List.any_cons, List.any_nil,
    Bool.or_eq_false_iff] at h
  exact h.1

/-- The retry loop invokes the operation at most once per remaining
iteration. -/
theorem retryLoop_calls_le {α : Type} (op : Nat → Except JsError α) (m : Nat) :
    ∀ (remaining attempt : Nat) (last : Option JsError),
      (retryLoop op m remaining attempt last).2 ≤ remaining := by
  intro remaining
  induction remaining with
  | zero => intro attempt last; simp [retryLoop]
  | succ k ih =>
    intro attempt last
    simp only [retryLoop]
    cases op attempt with
    | ok v => simp
    | error e =>
      simp only []
      split
      · simpa using Nat.succ_le_succ (ih (attempt + 1) (some e))
      · split
        · simp
        · simpa using Nat.succ_le_succ (ih (attempt + 1) (some e))

/-- One iteration of the loop on a successful invocation returns the value,
having invoked the operation once. -/
theorem retryLoop_step_ok {α : Type} (op : Nat → Except JsError α)
    (m attempt k : Nat) (v : α) (last : Option JsError)
    (hop : op attempt = .ok v) :
    retryLoop op m (k + 1) attempt last = (.ok v, 1) := by
  simp [retryLoop, hop]

/-- One iteration of the loop on a retryable failure before the last attempt
continues with the next attempt. -/
theorem retryLoop_step_retryable {α : Type} (op : Nat → Except JsError α)
    (m attempt k : Nat) (e : JsError) (last : Option JsError)
    (hop : op attempt = .error e) (hr : isRetryableError e = true)
    (hlt : attempt < m) :
    retryLoop op m (k + 1) attempt last =
      ((retryLoop op m k (attempt + 1) (some e)).1,
       (retryLoop op m k (attempt + 1) (some e)).2 + 1) := by
  have hne : (attempt == m) = false := by
    simp [Nat.ne_of_lt hlt]
  simp only [retryLoop, hop]
  by_cases hlock : strIncludes e.message "database is locked"
  · simp [hlock, hlt]
  · simp [hlock, hne, hr]

/-- One iteration of the loop on a non-retryable failure rethrows it at
once. -/
theorem retryLoop_step_nonretryable {α : Type} (op : Nat → Except JsError α)
    (m attempt k : Nat) (e : JsError) (last : Option JsError)
    (hop : op attempt = .error e) (hr : isRetryableError e = false) :
    retryLoop op m (k + 1) attempt last = (.error e, 1) := by
  have hlock := not_locked_of_not_retryable e hr
  simp [retryLoop, hop, hlock, hr]

/-- When every attempt fails with a retryable error, the loop runs through
all remaining attempts and rethrows the last error. -/
theorem retryLoop_exhaust {α : Type} (op : Nat → Except JsError α)
    (err : Nat → JsError) (m : Nat)
    (hop : ∀ n, op n = .error (err n))
    (hr : ∀ n, isRetryableError (err n) = true) :
    ∀ (remaining attempt : Nat) (last : Option JsError),
      attempt + remaining = m + 1 → 1 ≤ remaining →
      retryLoop op m remaining attempt last = (.error (err m), remaining) := by
  intro remaining
  induction remaining with
  | zero => intro attempt last _ h1; omega
  | succ k ih =>
    intro attempt last hsum _
    cases k with
    | zero =>
      have ha : attempt = m := by omega
      subst ha
      have hne : (attempt == attempt) = true := by simp
      simp only [retryLoop, hop attempt]
      by_cases hlock : strIncludes (err attempt).message "database is locked"
      · simp [hlock, Nat.lt_irrefl]
      · simp [hlock]
    | succ j =>
      have hlt : attempt < m := by omega
      rw [retryLoop_step_retryable op m attempt (j + 1) (err attempt) last
        (hop attempt) (hr attempt) hlt]
      rw [ih (attempt + 1) (some (err attempt)) (by omega) (by omega)]

/-- C2: `executeWithRetry(operation, maxAttempts)` invokes the operation at
most `maxAttempts` times and returns the first success: an operation that
fails retryably on its first two invocations and succeeds on the third,
wrapped with `maxAttempts = 3`, returns the success value after exactly 3
invocations; an always-retryably-failing operation is invoked exactly
`maxAttempts` times and the last error is rethrown unchanged; a
non-retryable error is rethrown with no further invocation. -/
theorem executeWithRetry_spec :
    (∀ (op : Nat → Except JsError Int) (m : Nat),
      executeWithRetryCalls op m ≤ m) ∧
    (∀ (op : Nat → Except JsError Int) (v : Int) (e₁ e₂ : JsError),
      op 1 = .error e₁ → isRetryableError e₁ = true →
      op 2 = .error e₂ → isRetryableError e₂ = true →
      op 3 = .ok v →
      executeWithRetry op 3 = .ok v ∧ executeWithRetryCalls op 3 = 3) ∧
    (∀ (op : Nat → Except JsError Int) (err : Nat → JsError) (m : Nat),
      1 ≤ m → (∀ n, op n = .error (err n)) →
      (∀ n, isRetryableError (err n) = true) →
      executeWithRetry op m = .error (err m) ∧ executeWithRetryCalls op m = m) ∧
    (∀ (op : Nat → Except JsError Int) (e : JsError) (m : Nat),
      1 ≤ m → op 1 = .error e → isRetryableError e = false →
      executeWithRetry op m = .error e ∧ executeWithRetryCalls op m = 1) := by
  refine ⟨?_, ?_, ?_, ?_⟩
  · intro op m
    exact retryLoop_calls_le op m m 1 none
  · intro op v e₁ e₂ h₁ hr₁ h₂ hr₂ h₃
    have s₁ := retryLoop_step_retryable op 3 1 2 e₁ none h₁ hr₁ (by omega)
    have s₂ := retryLoop_step_retryable op 3 2 1 e₂ (some e₁) h₂ hr₂ (by omega)
    have s₃ := retryLoop_step_ok op 3 3 0 v (some e₂) h₃
    constructor
    · show (retryLoop op 3 3 1 none).1 = .ok v
      rw [s₁]
      simp only []
      rw [s₂]
      simp only []
      rw [s₃]
    · show (retryLoop op 3 3 1 none).2 = 3
      rw [s₁]
      simp only []
      rw [s₂]
      simp only []
      rw [s₃]
  · intro op err m hm hop hr
    have h := retryLoop_exhaust op err m hop hr m 1 none (by omega) hm
    exact ⟨by show (retryLoop op m m 1 none).1 = _; rw [h],
      by show (retryLoop op m m 1 none).2 = m; rw [h]⟩
  · intro op e m hm h₁ hr
    obtain ⟨k, rfl⟩ : ∃ k, m = k + 1 := ⟨m - 1, by omega⟩
    have h := retryLoop_step_nonretryable op (k + 1) 1 k e none h₁ hr
    exact ⟨by show (retryLoop op (k+1) (k+1) 1 none).1 = _; rw [h],
      by show (retryLoop op (k+1) (k+1) 1 none).2 = 1; rw [h]⟩

/-- Witness for `executeWithRetry_spec` on concrete operations. -/
theorem executeWithRetry_spec_witness :
    (executeWithRetryCalls (fun _ => (.error ⟨"boom", none⟩ : Except JsError Int)) 3 ≤ 3) ∧
    (executeWithRetry (fun n => if n < 3 then .error ⟨"database is locked", none⟩ else .ok (7 : Int)) 3 = .ok 7 ∧
      executeWithRetryCalls (fun n => if n < 3 then .error ⟨"database is locked", none⟩ else .ok (7 : Int)) 3 = 3) ∧
    (executeWithRetry (fun _ => (.error ⟨"SQLITE_BUSY", none⟩ : Except JsError Int)) 3 = .error ⟨"SQLITE_BUSY", none⟩ ∧
      executeWithRetryCalls (fun _ => (.error ⟨"SQLITE_BUSY", none⟩ : Except JsError Int)) 3 = 3) ∧
    (executeWithRetry (fun _ => (.error ⟨"boom", none⟩ : Except JsError Int)) 3 = .error ⟨"boom", none⟩ ∧
      executeWithRetryCalls (fun _ => (.error ⟨"boom", none⟩ : Except JsError Int)) 3 = 1) :=
  by
  have hbusy : isRetryableError ⟨"SQLITE_BUSY", none⟩ = true := by decide
  exact ⟨executeWithRetry_spec.1 _ 3,
    executeWithRetry_spec.2.1 _ 7 ⟨"database is locked", none⟩
      ⟨"database is locked", none⟩ rfl (by decide) rfl (by decide) rfl,
    executeWithRetry_spec.2.2.1 _ (fun _ => ⟨"SQLITE_BUSY", none⟩) 3 (by omega)
      (fun _ => rfl) (fun _ => hbusy),
    executeWithRetry_spec.2.2.2 _ ⟨"boom", none⟩ 3 (by omega) rfl (by decide)⟩

/-- A mutating call that is not a `setQuota` for guild `g` cannot create a
quota row for `g`. -/
theorem findQuota_applyOp (op : DbOp) (g : String) (s : Store)
    (hop : op.isSetQuotaFor g = false) (h : findQuota s g = none) :
    findQuota (applyOp s op) g = none := by
  cases op with
  | setQuota g' l ub ubn now =>
    have hne : (g' == g) = false := by
      simpa [DbOp.isSetQuotaFor] using hop
    show List.find? (fun r => r.guild_id == g)
      ((s.quotas.filter (fun r => r.guild_id != g')) ++
        ([⟨g', l, ub, ubn, now⟩] : List QuotaRow)) = none
    rw [List.find?_eq_none]
    intro r hr
    rcases List.mem_append.mp hr with hr1 | hr2
    · have := List.find?_eq_none.mp h r (List.mem_filter.mp hr1).1
      simpa using this
    · have hr2' : r = ⟨g', l, ub, ubn, now⟩ := by simpa using hr2
      subst hr2'
      simp [hne]
  | incrementMessageCount g' u' dt' now => exact h
  | resetMessageCount g' u' dt' now => exact h
  | logAction g' a mi mn ti tn det now => exact h
  | incrementCommandUsage name => exact h

/-- A mutating call that does not touch the counter key cannot create a
counter row for it. -/
theorem counterAbsent_applyOp (op : DbOp) (g u dt : String) (s : Store)
    (hop : op.touchesCounter g u dt = false)
    (h : ∀ r ∈ s.daily_messages, dmKey r g u dt = false) :
    ∀ r ∈ (applyOp s op).daily_messages, dmKey r g u dt = false := by
  cases op with
  | setQuota g' l ub ubn now => exact h
  | logAction g' a mi mn ti tn det now => exact h
  | incrementCommandUsage name => exact h
  | incrementMessageCount g' u' dt' now =>
    have hne : (g' == g && u' == u && dt' == dt) = false := by
      simpa [DbOp.touchesCounter] using hop
    intro r hr
    show dmKey r g u dt = false
    have hr' : r ∈ upsertIncrement s.daily_messages g' u' dt' now := hr
    unfold upsertIncrement at hr'
    by_cases hany : s.daily_messages.any (fun x => dmKey x g' u' dt')
    · rw [if_pos hany] at hr'
      obtain ⟨r₀, hr₀, hfr⟩ := List.mem_map.mp hr'
      have hkey : dmKey r g u dt = dmKey r₀ g u dt := by
        rw [← hfr]
        split <;> rfl
      rw [hkey]
      exact h r₀ hr₀
    · rw [if_neg hany] at hr'
      rcases List.mem_append.mp hr' with h1 | h2
      · exact h r h1
      · have h2' : r = ⟨g', u', dt', 1, now⟩ := by simpa using h2
        subst h2'
        simpa [dmKey] using hne
  | resetMessageCount g' u' dt' now =>
    have hne : (g' == g && u' == u && dt' == dt) = false := by
      simpa [DbOp.touchesCounter] using hop
    intro r hr
    have hr' : r ∈ (s.daily_messages.filter (fun x => !(dmKey x g' u' dt'))) ++
        ([⟨g', u', dt', 0, now⟩] : List DailyMessageRow) := hr
    rcases List.mem_append.mp hr' with h1 | h2
    · exact h r (List.mem_filter.mp h1).1
    · have h2' : r = ⟨g', u', dt', 0, now⟩ := by simpa using h2
      subst h2'
      simpa [dmKey] using hne

/-- A trace free of `setQuota` calls for `g` leaves `g` without a quota
row. -/
theorem runOps_quotaAbsent (τ : List DbOp) (g : String) :
    ∀ s, (∀ op ∈ τ, op.isSetQuotaFor g = false) → findQuota s g = none →
      findQuota (runOps τ s) g = none := by
  induction τ with
  | nil => intro s _ h; exact h
  | cons op rest ih =>
    intro s hops h
    exact ih _ (fun o ho => hops o (List.mem_cons_of_mem _ ho))
      (findQuota_applyOp op g s (hops op (List.mem_cons_self _ _)) h)

/-- A trace free of increments and resets for a key leaves the key without
a counter row. -/
theorem runOps_counterAbsent (τ : List DbOp) (g u dt : String) :
    ∀ s, (∀ op ∈ τ, op.touchesCounter g u dt = false) →
      (∀ r ∈ s.daily_messages, dmKey r g u dt = false) →
      ∀ r ∈ (runOps τ s).daily_messages, dmKey r g u dt = false := by
  induction τ with
  | nil => intro s _ h; exact h
  | cons op rest ih =>
    intro s hops h
    exact ih _ (fun o ho => hops o (List.mem_cons_of_mem _ ho))
      (counterAbsent_applyOp op g u dt s (hops op (List.mem_cons_self _ _)) h)

/-- C4: on an initialized store, after any trace of mutating calls,
`getQuota` of a guild for which `setQuota` was never called resolves with 0
(it does not reject), and `getMessageCount` of a key for which neither
`incrementMessageCount` nor `resetMessageCount` was ever called resolves
with 0. -/
theorem default_zero (τ : List DbOp) (s₀ : Store) (g u dt : String) :
    ((∀ op ∈ τ, op.isSetQuotaFor g = false) → findQuota s₀ g = none →
      getQuota ⟨some (runOps τ s₀)⟩ g = .ok (0, ⟨some (runOps τ s₀)⟩)) ∧
    ((∀ op ∈ τ, op.touchesCounter g u dt = false) →
      s₀.daily_messages.all (fun r => !(dmKey r g u dt)) = true →
      getMessageCount ⟨some (runOps τ s₀)⟩ g u dt =
        .ok (0, ⟨some (runOps τ s₀)⟩)) := by
  constructor
  · intro hops h
    have h' := runOps_quotaAbsent τ g s₀ hops h
    simp [getQuota, h']
  · intro hops h
    have h0 : ∀ r ∈ s₀.daily_messages, dmKey r g u dt = false := by
      intro r hr
      have := List.all_eq_true.mp h r hr
      simpa using this
    have h' := runOps_counterAbsent τ g u dt s₀ hops h0
    have hfind : (runOps τ s₀).daily_messages.find?
        (fun r => dmKey r g u dt) = none := by
      rw [List.find?_eq_none]
      intro r hr hpr
      rw [h' r hr] at hpr
      exact Bool.false_ne_true hpr
    simp [getMessageCount, selectMessageCount, hfind]

/-- Witness for `default_zero`: a trace touching only other guilds and
keys leaves the probed guild and key at 0. -/
theorem default_zero_witness :
    getQuota ⟨some (runOps
        [DbOp.setQuota "other" 5 "m" "Mod" 0,
         DbOp.incrementMessageCount "g2" "u" "2024-01-01" 0] emptyStore)⟩ "g" =
      .ok (0, ⟨some (runOps
        [DbOp.setQuota "other" 5 "m" "Mod" 0,
         DbOp.incrementMessageCount "g2" "u" "2024-01-01" 0] emptyStore)⟩) ∧
    getMessageCount ⟨some (runOps
        [DbOp.setQuota "other" 5 "m" "Mod" 0,
         DbOp.incrementMessageCount "g2" "u" "2024-01-01" 0] emptyStore)⟩
        "g" "u" "2024-01-01" =
      .ok (0, ⟨some (runOps
        [DbOp.setQuota "other" 5 "m" "Mod" 0,
         DbOp.incrementMessageCount "g2" "u" "2024-01-01" 0] emptyStore)⟩) :=
  ⟨(default_zero [DbOp.setQuota "other" 5 "m" "Mod" 0,
      DbOp.incrementMessageCount "g2" "u" "2024-01-01" 0] emptyStore
      "g" "u" "2024-01-01").1 (by decide) (by decide),
   (default_zero [DbOp.setQuota "other" 5 "m" "Mod" 0,
      DbOp.incrementMessageCount "g2" "u" "2024-01-01" 0] emptyStore
      "g" "u" "2024-01-01").2 (by decide) (by decide)⟩

/-- C6: on a corrupted store file, initialization detects the corruption
signature, backs the file up under a timestamped backup name, deletes the
original, and retries the open exactly once: the returned promise resolves
(with a freshly created empty store), the backup exists afterwards, and
subsequent reads and writes succeed; if the single retry itself fails, that
failure rejects the initialization promise. -/
theorem initDatabase_corruption_recovery (fs : FileSystem) (now : Nat)
    (e : JsError) (g u dt : String) (t : Nat)
    (hc : fs.dbFile = .corrupted)
    (hb : ∀ b ∈ fs.backups, b.1 < now) :
    initDatabase none none now fs =
      (.ok ⟨some emptyStore⟩,
       ⟨.valid emptyStore,
        cleanupOldBackups 5 (fs.backups ++ [(now, .corrupted)])⟩) ∧
    (now, DbFile.corrupted) ∈ (initDatabase none none now fs).2.backups ∧
    getQuota ⟨some emptyStore⟩ g = .ok (0, ⟨some emptyStore⟩) ∧
    incrementMessageCount ⟨some emptyStore⟩ g u dt t =
      .ok (1, ⟨some { emptyStore with daily_messages := [⟨g, u, dt, 1, t⟩] }⟩) ∧
    (initDatabase none (some e) now fs).1 = .error e := by
  obtain ⟨file, backups⟩ := fs
  simp only [FileSystem.mk.injEq] at hc ⊢
  subst hc
  have hsig : isCorruptionCreateError ⟨"file is not a database",
      some "SQLITE_NOTADB"⟩ = true := by decide
  have hrun : initDatabase none none now ⟨.corrupted, backups⟩ =
      (.ok ⟨some emptyStore⟩,
       ⟨.valid emptyStore,
        cleanupOldBackups 5 (backups ++ [(now, .corrupted)])⟩) := by
    simp [initDatabase, sqliteOpen, createTables, hsig, recoverAndRetry,
      recoverCorruptedDatabase]
  have hb' : ∀ b ∈ backups, b.1 < now := by
    intro b hbm
    exact hb b hbm
  have h0 : (backups ++ [(now, DbFile.corrupted)]).countP
      (fun c => now < c.1) = 0 := by
    rw [List.countP_eq_zero]
    intro c hcm
    rcases List.mem_append.mp hcm with h1 | h2
    · have := hb' c h1
      simp only [decide_eq_true_eq]
      omega
    · have h2' : c = (now, DbFile.corrupted) := by simpa using h2
      subst h2'
      simp
  have hmem : (now, DbFile.corrupted) ∈
      cleanupOldBackups 5 (backups ++ [(now, DbFile.corrupted)]) := by
    have hm : (now, DbFile.corrupted) ∈ backups ++ [(now, DbFile.corrupted)] :=
      List.mem_append_right _ (List.mem_singleton.mpr rfl)
    unfold cleanupOldBackups
    split
    · refine List.mem_filter.mpr ⟨hm, ?_⟩
      simp [h0]
    · exact hm
  refine ⟨hrun, ?_, ?_, ?_, ?_⟩
  · rw [hrun]
    exact hmem
  · rfl
  · simp [incrementMessageCount, upsertIncrement, selectMessageCount,
      emptyStore, List.find?, dmKey]
  · simp [initDatabase, sqliteOpen, createTables, hsig, recoverAndRetry]

/-- Witness for `initDatabase_corruption_recovery` on a concrete corrupted
file with no pre-existing backups. -/
theorem initDatabase_corruption_recovery_witness :
    initDatabase none none 5 ⟨.corrupted, []⟩ =
      (.ok ⟨some emptyStore⟩,
       ⟨.valid emptyStore,
        cleanupOldBackups 5 ([] ++ [(5, .corrupted)])⟩) ∧
    (5, DbFile.corrupted) ∈ (initDatabase none none 5 ⟨.corrupted, []⟩).2.backups ∧
    getQuota ⟨some emptyStore⟩ "g" = .ok (0, ⟨some emptyStore⟩) ∧
    incrementMessageCount ⟨some emptyStore⟩ "g" "u" "2024-01-01" 0 =
      .ok (1, ⟨some { emptyStore with daily_messages :=
        [⟨"g", "u", "2024-01-01", 1, 0⟩] }⟩) ∧
    (initDatabase none (some ⟨"disk I/O error", none⟩) 5 ⟨.corrupted, []⟩).1 =
      .error ⟨"disk I/O error", none⟩ :=
  initDatabase_corruption_recovery ⟨.corrupted, []⟩ 5 ⟨"disk I/O error", none⟩
    "g" "u" "2024-01-01" 0 rfl (by simp)

@[simp]
theorem isUpsert_upsert {N : Nat} (i : Fin N) :
    (IncEvent.upsert i).isUpsert = true := rfl

@[simp]
theorem isUpsert_select {N : Nat} (i : Fin N) :
    (IncEvent.select i).isUpsert = false := rfl

@[simp]
theorem isSelect_upsert {N : Nat} (i : Fin N) :
    (IncEvent.upsert i).isSelect = false := rfl

@[simp]
theorem isSelect_select {N : Nat} (i : Fin N) :
    (IncEvent.select i).isSelect = true := rfl

/-- Invariant of a partially executed schedule of concurrent increments:
after the upserts of the calls in `upserted` have run, the key's count is
the initial count plus `upserted.length`; running the remaining statements
adds one to the count per remaining upsert, appends one settled value per
remaining select, and every settled value stays between the initial count
plus one and the initial count plus `N`. -/
theorem runSched_invariant {N : Nat} (g u dt : String) (now : Nat)
    (prev : Int) :
    ∀ (sched : List (IncEvent N)) (upserted selected : List (Fin N))
      (rows : List DailyMessageRow) (results : List Int),
      okEvents upserted selected sched = true →
      upserted.Nodup →
      (upserted = [] → (selectMessageCount rows g u dt).getD 0 = prev) →
      (upserted ≠ [] →
        selectMessageCount rows g u dt = some (prev + upserted.length)) →
      (selectMessageCount
          ((sched.foldl (stepEvent g u dt now) ⟨rows, results⟩).rows)
          g u dt).getD 0 =
        prev + upserted.length + sched.countP (·.isUpsert) ∧
      (sched.foldl (stepEvent g u dt now) ⟨rows, results⟩).results.length =
        results.length + sched.countP (·.isSelect) ∧
      (∀ v ∈ (sched.foldl (stepEvent g u dt now) ⟨rows, results⟩).results,
        v ∈ results ∨ (prev + 1 ≤ v ∧ v ≤ prev + N)) := by
  intro sched
  induction sched with
  | nil =>
    intro upserted selected rows results hok hnd h0 hs
    refine ⟨?_, by simp, fun v hv => Or.inl hv⟩
    simp only [List.foldl_nil, List.countP_nil]
    cases upserted with
    | nil => simpa using h0 rfl
    | cons a l =>
      rw [hs (by simp)]
      simp
  | cons ev rest ih =>
    intro upserted selected rows results hok hnd h0 hs
    cases ev with
    | upsert i =>
      have hok' : (!upserted.contains i) = true ∧
          okEvents (i :: upserted) selected rest = true := by
        simpa [okEvents, Bool.and_eq_true] using hok
      have hni : i ∉ upserted := by simpa using hok'.1
      have hsel' : selectMessageCount (upsertIncrement rows g u dt now) g u dt
          = some (prev + ((i :: upserted).length : Nat)) := by
        rw [selectMessageCount_upsert]
        cases upserted with
        | nil =>
          rw [h0 rfl]
          norm_num
        | cons a l =>
          rw [hs (by simp)]
          simp only [Option.getD_some, List.length_cons, Option.some.injEq]
          push_cast
          ring
      have key := ih (i :: upserted) selected
        (upsertIncrement rows g u dt now) results hok'.2
        (List.nodup_cons.mpr ⟨hni, hnd⟩)
        (fun h => (List.cons_ne_nil _ _ h).elim) (fun _ => hsel')
      simp only [List.foldl_cons, stepEvent, List.countP_cons,
        isUpsert_upsert, isUpsert_select, isSelect_upsert, isSelect_select,
        eq_self_iff_true, if_true, Bool.false_eq_true, if_false] at key ⊢
      refine ⟨?_, ?_, key.2.2⟩
      · rw [key.1]
        simp only [List.length_cons]
        push_cast
        ring
      · rw [key.2.1]
        simp
    | select i =>
      have hok2 := hok
      simp only [okEvents, Bool.and_eq_true] at hok2
      obtain ⟨⟨hci, hcs⟩, hok3⟩ := hok2
      have hne : upserted ≠ [] := by
        intro h
        subst h
        simp at hci
      have hlen1 : 1 ≤ upserted.length :=
        List.length_pos.mpr hne
      have hlenN : upserted.length ≤ N := by
        simpa using List.Nodup.length_le_card hnd
      have hsel := hs hne
      have key := ih upserted (i :: selected) rows
        (results ++ [prev + (upserted.length : Nat)]) hok3 hnd h0 hs
      simp only [List.foldl_cons, stepEvent, List.countP_cons,
        isUpsert_upsert, isUpsert_select, isSelect_upsert, isSelect_select,
        eq_self_iff_true, if_true, Bool.false_eq_true, if_false,
        hsel, Option.getD_some] at key ⊢
      refine ⟨?_, ?_, ?_⟩
      · rw [key.1]
        simp
      · rw [key.2.1]
        simp only [List.length_append, List.length_singleton]
        omega
      · intro v hv
        rcases key.2.2 v hv with hv' | hrange
        · rcases List.mem_append.mp hv' with h1 | h2
          · exact Or.inl h1
          · have h2' : v = prev + (upserted.length : Nat) := by simpa using h2
            subst h2'
            refine Or.inr ⟨?_, ?_⟩
            · omega
            · have : (upserted.length : Int) ≤ (N : Int) := by
                exact_mod_cast hlenN
              omega
        · exact Or.inr hrange

/-- C1 (amended): for every key and every valid schedule of `N` concurrent
`incrementMessageCount` calls — each call's upsert statement followed later
by its separate re-read statement, interleaved arbitrarily under the
storage engine's statement-level serialization — no update is lost:
`getMessageCount` afterwards returns the previous count plus `N`, exactly
`N` values are returned, and every returned value lies in
`{prevCount+1, ..., prevCount+N}`.  The returned values need NOT be
pairwise distinct (see the counterexample): the upsert and its re-read are
two separately serialized statements, so another call's upsert can land
between them. -/
theorem incrementMessageCount_concurrent (N : Nat) (g u dt : String)
    (now : Nat) (s : Store) (sched : List (IncEvent N))
    (hv : validSched N sched = true) :
    getMessageCount
        ⟨some { s with daily_messages :=
          (runSched g u dt now sched s.daily_messages).rows }⟩ g u dt =
      .ok ((selectMessageCount s.daily_messages g u dt).getD 0 + N,
        ⟨some { s with daily_messages :=
          (runSched g u dt now sched s.daily_messages).rows }⟩) ∧
    (runSched g u dt now sched s.daily_messages).results.length = N ∧
    (∀ v ∈ (runSched g u dt now sched s.daily_messages).results,
      (selectMessageCount s.daily_messages g u dt).getD 0 + 1 ≤ v ∧
      v ≤ (selectMessageCount s.daily_messages g u dt).getD 0 + N) := by
  have hv' := hv
  simp only [validSched, Bool.and_eq_true, beq_iff_eq] at hv'
  obtain ⟨⟨hok, hcu⟩, hcs⟩ := hv'
  have key := runSched_invariant g u dt now
    ((selectMessageCount s.daily_messages g u dt).getD 0) sched [] []
    s.daily_messages [] hok List.nodup_nil (fun _ => rfl)
    (fun h => (h rfl).elim)
  rw [hcu, hcs] at key
  have hfold : sched.foldl (stepEvent g u dt now)
      (⟨s.daily_messages, []⟩ : IncRunState) =
      runSched g u dt now sched s.daily_messages := rfl
  rw [hfold] at key
  refine ⟨?_, ?_, ?_⟩
  · show Except.ok ((selectMessageCount
        (runSched g u dt now sched s.daily_messages).rows g u dt).getD 0,
        (⟨some { s with daily_messages :=
          (runSched g u dt now sched s.daily_messages).rows }⟩ : Database)) = _
    have h1 := key.1
    simp only [List.length_nil, Nat.cast_zero, add_zero] at h1
    rw [h1]
  · have h2 := key.2.1
    simpa using h2
  · intro v hv₀
    rcases key.2.2 v hv₀ with h | h
    · exact absurd h (List.not_mem_nil v)
    · exact h

/-- C1 counterexample to the claim as stated: with two concurrent
increments on a fresh key, the valid schedule upsert₀, upsert₁, select₀,
select₁ makes both calls return 2 — the returned values are not pairwise
distinct and are not the set {1, 2}. -/
theorem incrementMessageCount_concurrent_counterexample :
    validSched 2 [.upsert 0, .upsert 1, .select 0, .select 1] = true ∧
    (runSched (N := 2) "g" "u" "2024-01-01" 7
      [.upsert 0, .upsert 1, .select 0, .select 1] []).results = [2, 2] ∧
    ¬ ((runSched (N := 2) "g" "u" "2024-01-01" 7
      [.upsert 0, .upsert 1, .select 0, .select 1] []).results).Nodup := by
  decide

/-- Witness for `incrementMessageCount_concurrent` at the fully serialized
schedule of two calls on the fresh store. -/
theorem incrementMessageCount_concurrent_witness :
    validSched 2 [.upsert 0, .select 0, .upsert 1, .select 1] = true ∧
    (getMessageCount
        ⟨some { emptyStore with daily_messages :=
          (runSched (N := 2) "g" "u" "2024-01-01" 7
            [.upsert 0, .select 0, .upsert 1, .select 1]
            emptyStore.daily_messages).rows }⟩ "g" "u" "2024-01-01" =
      .ok ((selectMessageCount emptyStore.daily_messages "g" "u"
            "2024-01-01").getD 0 + 2,
        ⟨some { emptyStore with daily_messages :=
          (runSched (N := 2) "g" "u" "2024-01-01" 7
            [.upsert 0, .select 0, .upsert 1, .select 1]
            emptyStore.daily_messages).rows }⟩) ∧
      (runSched (N := 2) "g" "u" "2024-01-01" 7
        [.upsert 0, .select 0, .upsert 1, .select 1]
        emptyStore.daily_messages).results.length = 2 ∧
      (∀ v ∈ (runSched (N := 2) "g" "u" "2024-01-01" 7
          [.upsert 0, .select 0, .upsert 1, .select 1]
          emptyStore.daily_messages).results,
        (selectMessageCount emptyStore.daily_messages "g" "u"
          "2024-01-01").getD 0 + 1 ≤ v ∧
        v ≤ (selectMessageCount emptyStore.daily_messages "g" "u"
          "2024-01-01").getD 0 + 2)) :=
  ⟨by decide,
   incrementMessageCount_concurrent 2 "g" "u" "2024-01-01" 7 emptyStore
     [.upsert 0, .select 0, .upsert 1, .select 1] (by decide)⟩

end BonkBot
